import Mathlib

/-!
Shallow embedding of the spreadsheet ingestion pipeline of the
analytic-mp repository (`src/lib/utils/parsing.ts`, `src/lib/utils/number.ts`,
`src/lib/parsers/wb.ts`, `src/lib/parsers/ozon.ts`).

Modelling conventions:
* JavaScript numbers are modelled as rationals (`ℚ`).  Every arithmetic
  step of the pipeline that could produce `NaN`/`Infinity` in JS is guarded
  in the source (`isFinite` checks, `safeDiv`), and those guards are
  modelled as `Option ℚ` with `none` for null/NaN/non-finite.
* JS `null` and `undefined` behave identically at every use site of the
  pipeline (both are `== null`, both are falsy, both parse to null), so a
  single `Cell.null` constructor models both.
* Workbook reading (`XLSX.read` / `sheet_to_json`) is the external
  collaborator; the model starts from the per-sheet 2-D grid of cells.
  Period detection only fills the `periodStart`/`periodEnd` output fields
  from free-text cells and influences nothing else; those two fields are
  omitted from the modelled result records.
-/

/- The batteries library marks the `Rat` arithmetic operations
`@[irreducible]`, which blocks definitional evaluation of the embedded
pipeline on concrete spreadsheets.  Restore the default reducibility so
that concrete runs can be checked by `decide`. -/
set_option allowUnsafeReducibility true in
attribute [semireducible] Rat.mul Rat.inv Rat.add Rat.sub Rat.ofScientific

/-- The set of characters matched by the JS regexp `\s` (and removed by
`String.prototype.trim`): ASCII whitespace, NBSP, and the Unicode space
separators. -/
def jsIsSpace (c : Char) : Bool :=
  c = ' ' || c = '\t' || c = '\n' || c = '\r' ||
  c = Char.ofNat 0x0b || c = Char.ofNat 0x0c ||
  c = Char.ofNat 0xa0 || c = Char.ofNat 0x1680 ||
  (0x2000 ≤ c.toNat && c.toNat ≤ 0x200a) ||
  c = Char.ofNat 0x2028 || c = Char.ofNat 0x2029 ||
  c = Char.ofNat 0x202f || c = Char.ofNat 0x205f ||
  c = Char.ofNat 0x3000 || c = Char.ofNat 0xfeff

/-- JS `toLowerCase` restricted to the alphabets appearing in the source
(ASCII and Cyrillic); other characters are unchanged. -/
def jsToLowerChar (c : Char) : Char :=
  if 'A' ≤ c ∧ c ≤ 'Z' then Char.ofNat (c.toNat + 32)
  else if 0x410 ≤ c.toNat ∧ c.toNat ≤ 0x42f then Char.ofNat (c.toNat + 32)
  else if c.toNat = 0x401 then Char.ofNat 0x451
  else c

/-- JS `toUpperCase` restricted to ASCII and Cyrillic. -/
def jsToUpperChar (c : Char) : Char :=
  if 'a' ≤ c ∧ c ≤ 'z' then Char.ofNat (c.toNat - 32)
  else if 0x430 ≤ c.toNat ∧ c.toNat ≤ 0x44f then Char.ofNat (c.toNat - 32)
  else if c.toNat = 0x451 then Char.ofNat 0x401
  else c

def jsToLowerStr (s : String) : String := ⟨s.data.map jsToLowerChar⟩

def jsToUpperStr (s : String) : String := ⟨s.data.map jsToUpperChar⟩

def jsTrimList (cs : List Char) : List Char :=
  ((cs.dropWhile jsIsSpace).reverse.dropWhile jsIsSpace).reverse

/-- JS `String.prototype.trim`. -/
def jsTrim (s : String) : String := ⟨jsTrimList s.data⟩

/-- Structural worker for `collapseWsList`: the flag records whether the
previous character was whitespace (i.e. we are inside a run). -/
def collapseWsAux : Bool → List Char → List Char
  | _, [] => []
  | prevSpace, c :: rest =>
    if jsIsSpace c then
      if prevSpace then collapseWsAux true rest
      else ' ' :: collapseWsAux true rest
    else c :: collapseWsAux false rest

/-- Collapse every maximal run of JS whitespace into a single ASCII space.
This is the combined effect of the chained replaces
`[ ]→' '`, `[\n\r]+→' '`, `\s+→' '` in `normalizeHeader`. -/
def collapseWsList (cs : List Char) : List Char := collapseWsAux false cs

/-- `pat` occurs as a contiguous substring of `cs` (JS `String.includes`). -/
def listContainsSeq (cs pat : List Char) : Bool :=
  match cs with
  | [] => pat.isEmpty
  | _ :: rest => List.isPrefixOf pat cs || listContainsSeq rest pat

def jsIncludes (s sub : String) : Bool := listContainsSeq s.data sub.data

/-- Structurally recursive digit accumulator: `fuel` bounds the number of
digits and `fuel = n` always suffices. -/
def natToDigitsAux : ℕ → ℕ → List Char → List Char
  | _, 0, acc => acc
  | 0, _ + 1, acc => acc
  | fuel + 1, n + 1, acc =>
    natToDigitsAux fuel ((n + 1) / 10) (Char.ofNat (48 + (n + 1) % 10) :: acc)

/-- Decimal digit string of a natural number (`String(n)` for naturals). -/
def natToString (n : ℕ) : String :=
  if n = 0 then "0" else ⟨natToDigitsAux n n []⟩

def isDigitChar (c : Char) : Bool := '0' ≤ c && c ≤ '9'

def digitVal (c : Char) : ℕ := c.toNat - 48

def natOfDigits (cs : List Char) : ℕ := cs.foldl (fun a c => a * 10 + digitVal c) 0

/-- Decimal expansion digits of a rational in `[0,1)`, up to `fuel` digits.
JS doubles are dyadic rationals whose decimal expansions terminate, so for
every value the pipeline can actually hold this is exact. -/
def qFracDigits : ℚ → ℕ → List Char
  | _, 0 => []
  | x, fuel + 1 =>
    if x = 0 then []
    else
      let y := x * 10
      let d := (⌊y⌋).toNat
      Char.ofNat (48 + d) :: qFracDigits (y - ⌊y⌋) fuel

/-- JS number-to-string conversion (`String(n)`), for sign + integer part +
terminating decimal expansion. -/
def qToString (q : ℚ) : String :=
  let sign : String := if q < 0 then "-" else ""
  let a := |q|
  let ip := (⌊a⌋).toNat
  let frac := a - ⌊a⌋
  if frac = 0 then sign ++ natToString ip
  else sign ++ natToString ip ++ "." ++ ⟨qFracDigits frac 100⟩

/-- A spreadsheet cell as `sheet_to_json(…, defval: null)` delivers it:
a string, a (finite) number, or null/undefined. -/
inductive Cell where
  | str (s : String)
  | num (q : ℚ)
  | null
deriving DecidableEq, Repr

/-- JS falsiness of a cell value (`!value`): null/undefined, `''`, `0`. -/
def cellFalsy (c : Cell) : Bool :=
  match c with
  | .null => true
  | .str s => s = ""
  | .num q => q = 0

/-- `String(value)` for the non-falsy strings/numbers the pipeline
stringifies (the null case is always guarded by `value || ''`). -/
def cellToString (c : Cell) : String :=
  match c with
  | .str s => s
  | .num q => qToString q
  | .null => ""

/-- `String(value || '')`. -/
def cellOrEmptyToString (c : Cell) : String :=
  if cellFalsy c then "" else cellToString c

/-- Tail of the JS `Number(...)` decimal grammar: given integer digits,
fraction digits and the rest of the string, require an optional exponent
and then end-of-string.  `none` models NaN. -/
def jsNumberDecTail (ip fp rest : List Char) : Option ℚ :=
  if ip.isEmpty ∧ fp.isEmpty then none
  else
    let base : ℚ := (natOfDigits ip : ℚ) + (natOfDigits fp : ℚ) / 10 ^ fp.length
    match rest with
    | [] => some base
    | e :: r1 =>
      if e = 'e' ∨ e = 'E' then
        let sgnDs : Bool × List Char :=
          match r1 with
          | '+' :: t => (true, t)
          | '-' :: t => (false, t)
          | t => (true, t)
        let ds := sgnDs.2.takeWhile isDigitChar
        let r2 := sgnDs.2.dropWhile isDigitChar
        if ds.isEmpty ∨ ¬ r2.isEmpty then none
        else if sgnDs.1 then some (base * 10 ^ natOfDigits ds)
        else some (base / 10 ^ natOfDigits ds)
      else none

/-- JS `Number(...)` on an unsigned decimal literal (`12`, `12.`, `.5`,
`1.5e3`), consuming the whole string. -/
def jsNumberDec (cs : List Char) : Option ℚ :=
  let ip := cs.takeWhile isDigitChar
  let r1 := cs.dropWhile isDigitChar
  match r1 with
  | '.' :: r2 => jsNumberDecTail ip (r2.takeWhile isDigitChar) (r2.dropWhile isDigitChar)
  | _ => jsNumberDecTail ip [] r1

def isHexDigitChar (c : Char) : Bool :=
  isDigitChar c || ('a' ≤ c && c ≤ 'f') || ('A' ≤ c && c ≤ 'F')

def hexVal (c : Char) : ℕ :=
  if isDigitChar c then digitVal c
  else if 'a' ≤ c ∧ c ≤ 'f' then c.toNat - 87
  else c.toNat - 55

/-- JS `Number(...)` on a base-prefixed literal body (`0x…`, `0o…`, `0b…`). -/
def jsNumberRadix (radix : ℕ) (cs : List Char) : Option ℚ :=
  let ok : Char → Bool :=
    if radix = 16 then isHexDigitChar
    else if radix = 8 then fun c => '0' ≤ c && c ≤ '7'
    else fun c => c = '0' || c = '1'
  if cs.isEmpty ∨ ¬ cs.all ok then none
  else some ((cs.foldl (fun a c => a * radix + hexVal c) 0 : ℕ) : ℚ)

/-- JS `Number(str)` on a whitespace-free, non-empty string, with `none`
for NaN and for the non-finite `Infinity` literals (the caller
`parseRuNumber` maps non-finite results to null). -/
def jsNumber (s : String) : Option ℚ :=
  match s.data with
  | '+' :: rest => if rest = "Infinity".data then none else jsNumberDec rest
  | '-' :: rest =>
    if rest = "Infinity".data then none else (jsNumberDec rest).map (fun q => -q)
  | '0' :: x :: rest =>
    if x = 'x' ∨ x = 'X' then jsNumberRadix 16 rest
    else if x = 'o' ∨ x = 'O' then jsNumberRadix 8 rest
    else if x = 'b' ∨ x = 'B' then jsNumberRadix 2 rest
    else if s.data = "Infinity".data then none
    else jsNumberDec s.data
  | cs => if cs = "Infinity".data then none else jsNumberDec cs

/-- JS `parseFloat(str)`: longest valid numeric prefix, `none` for NaN.
The single call site (`parseNumberRU` v1) has already filtered the string
down to digits, `.` and `-`, so the exponent form cannot occur there. -/
def jsParseFloat (s : String) : Option ℚ :=
  let sgnCs : ℚ × List Char :=
    match s.data with
    | '-' :: t => (-1, t)
    | '+' :: t => (1, t)
    | t => (1, t)
  let ip := sgnCs.2.takeWhile isDigitChar
  let r1 := sgnCs.2.dropWhile isDigitChar
  let fp : List Char :=
    match r1 with
    | '.' :: r2 => r2.takeWhile isDigitChar
    | _ => []
  if ip.isEmpty ∧ fp.isEmpty then none
  else some (sgnCs.1 * ((natOfDigits ip : ℚ) + (natOfDigits fp : ℚ) / 10 ^ fp.length))

/-- `parseRuNumber` (src/lib/utils/number.ts): RU-locale number parsing.
Strips `₽`/`%`, maps NBSP/tab to space, removes all whitespace, turns every
comma into a dot, then applies `Number`; non-finite results are null. -/
def parseRuNumber (v : Cell) : Option ℚ :=
  match v with
  | .null => none
  | .num q => some q
  | .str s =>
    let raw := jsTrim s
    if raw = "" ∨ raw = "—" ∨ raw = "-" ∨ raw = "–" then none
    else
      let n1 := raw.data.filter (fun c => ¬ (c = '₽' ∨ c = '%'))
      let n2 := n1.map (fun c => if c = Char.ofNat 0xa0 ∨ c = '\t' then ' ' else c)
      let n3 := n2.filter (fun c => ¬ jsIsSpace c)
      let n4 := n3.map (fun c => if c = ',' then '.' else c)
      if n4 = [] ∨ n4 = ['-'] ∨ n4 = ['.'] then none
      else jsNumber ⟨n4⟩

/-- `parseRuPercentToFraction` (src/lib/utils/number.ts). -/
def parseRuPercentToFraction (v : Cell) : Option ℚ :=
  match parseRuNumber v with
  | none => none
  | some n =>
    if 0 ≤ n ∧ n ≤ 1 then some n
    else if 1 < n ∧ n ≤ 100 then some (n / 100) else none

/-- `parseNumberRU` (src/lib/utils/parsing.ts, current version): delegates
to `parseRuNumber`. -/
def parseNumberRU (v : Cell) : Option ℚ := parseRuNumber v

/-- `parsePercentToFraction` (src/lib/utils/parsing.ts, current version):
delegates to `parseRuPercentToFraction`. -/
def parsePercentToFraction (v : Cell) : Option ℚ := parseRuPercentToFraction v

/-- Replace the first comma only (JS `str.replace(',', '.')` with a string
pattern replaces a single occurrence). -/
def replaceFirstComma : List Char → List Char
  | [] => []
  | c :: rest => if c = ',' then '.' :: rest else c :: replaceFirstComma rest

namespace Legacy

/-- `parseNumberRU`, first version of src/lib/utils/parsing.ts: strips
`₽`/`%` and whitespace, replaces only the FIRST comma with a dot, drops any
remaining character that is not a digit/dot/minus, then `parseFloat`.
(The `typeof value !== 'string'` object branch is unreachable for cells.) -/
def parseNumberRU (v : Cell) : Option ℚ :=
  match v with
  | .null => none
  | .num q => some q
  | .str s =>
    let raw := jsTrim s
    if raw = "" ∨ raw = "—" ∨ raw = "-" ∨ raw = "–" then none
    else
      let n1 := raw.data.filter (fun c => ¬ (c = '₽' ∨ c = '%'))
      let n2 := n1.filter (fun c => ¬ jsIsSpace c)
      let n3 := replaceFirstComma n2
      let n4 := n3.filter (fun c => isDigitChar c ∨ c = '.' ∨ c = '-')
      if n4 = [] ∨ n4 = ['-'] ∨ n4 = ['.'] then none
      else jsParseFloat ⟨n4⟩

/-- `parsePercentToFraction`, first version of src/lib/utils/parsing.ts. -/
def parsePercentToFraction (v : Cell) : Option ℚ :=
  match Legacy.parseNumberRU v with
  | none => none
  | some n =>
    if 1 < n ∧ n ≤ 100 then some (n / 100)
    else if 0 ≤ n ∧ n ≤ 1 then some n else none

end Legacy

/-- `normalizeHeader` on a plain string: trim, collapse whitespace runs
(incl. NBSP and line breaks) to single spaces, lower-case. -/
def normalizeHeaderStr (s : String) : String :=
  jsToLowerStr ⟨collapseWsList (jsTrimList s.data)⟩

/-- `normalizeHeader` (src/lib/utils/parsing.ts) on a cell value:
falsy input gives the empty string, otherwise stringify and normalize. -/
def normalizeHeader (c : Cell) : String :=
  if cellFalsy c then "" else normalizeHeaderStr (cellToString c)

/-- `safeDiv` (src/lib/utils/parsing.ts): null if either operand is null or
the denominator is zero.  (The `ignoreZero` flag changes nothing in the
source and is never passed by a caller; in `ℚ` the result is always
finite.) -/
def safeDiv (numerator denominator : Option ℚ) : Option ℚ :=
  match numerator, denominator with
  | some n, some d => if d = 0 then none else some (n / d)
  | _, _ => none

/-- `clampFraction` (src/lib/utils/parsing.ts).  The `logWarning` flag only
writes to the console and is never set by the pipeline. -/
def clampFraction (x : Option ℚ) : Option ℚ :=
  match x with
  | none => none
  | some v => if v < 0 then some 0 else if v > 1 then some 1 else some v

/-- JS `Math.round`: round half toward positive infinity. -/
def jsRound (x : ℚ) : ℤ := ⌊x + 1 / 2⌋

/-- `coerceInt` (src/lib/utils/parsing.ts): round, clamp negatives to 0.
The `logWarning` flag only writes to the console and is never set. -/
def coerceInt (x : Option ℚ) : Option ℚ :=
  match x with
  | none => none
  | some v =>
    let rounded := jsRound v
    if rounded < 0 then some 0 else some (rounded : ℚ)

/-- `fuzzyMatch` (src/lib/utils/parsing.ts). -/
def fuzzyMatch (str : String) (patterns : List String) : Bool :=
  let normalized := normalizeHeaderStr str
  patterns.any (fun pattern => jsIncludes normalized (jsToLowerStr pattern))

/-- `findColumnIndex` (src/lib/utils/parsing.ts): first HEADER that
fuzzy-matches ANY of the patterns (headers-outer loop). -/
def findColumnIndex (headers : List String) (patterns : List String) : Option ℕ :=
  headers.findIdx? (fun h => fuzzyMatch h patterns)

/-- `pickColIndex` (src/lib/utils/parsing.ts, current version):
candidates-outer loop — the first candidate that matches any header wins.
The source also accepts RegExp candidates; the repository only needs
literal substrings, which is what is modelled. -/
def pickColIndex (headers : List String) : List String → Option ℕ
  | [] => none
  | c :: rest =>
    match headers.findIdx? (fun h => h ≠ "" && jsIncludes h (jsToLowerStr c)) with
    | some i => some i
    | none => pickColIndex headers rest

def isAlnumUpper (c : Char) : Bool :=
  ('A' ≤ c && c ≤ 'Z') || ('0' ≤ c && c ≤ '9')

/-- `isValidArtikul` (src/lib/utils/parsing.ts): the trimmed, upper-cased
value must match `^[A-Z0-9]+-[A-Z0-9]+`: a non-empty alphanumeric run, a
dash, and at least one more alphanumeric character. -/
def isValidArtikul (s : String) : Bool :=
  if s = "" then false
  else
    let t := (jsTrimList s.data).map jsToUpperChar
    let p := t.takeWhile isAlnumUpper
    let r := t.dropWhile isAlnumUpper
    match p, r with
    | [], _ => false
    | _ :: _, '-' :: d :: _ => isAlnumUpper d
    | _, _ => false

/-- `isTotalsRow` (src/lib/utils/parsing.ts). -/
def isTotalsRow (row : List Cell) : Bool :=
  let firstCell := jsToLowerStr (jsTrim (cellOrEmptyToString (row.getD 0 .null)))
  firstCell = "итого" || firstCell = "total" || firstCell = "всего" ||
    List.isPrefixOf "итог".data firstCell.data

/-! ## WB (Format A) parser — src/lib/parsers/wb.ts -/

/-- One sheet of the in-memory workbook: sheet name and the cell grid that
`sheet_to_json(sheet, ‹header: 1, defval: null›)` produces for it. -/
abbrev Grid := List (List Cell)

/-- `row[idx]` where `idx` may be null (JS `row[null]` and out-of-range
indexing both give `undefined`, modelled by `Cell.null`). -/
def cellAt (row : List Cell) (idx : Option ℕ) : Cell :=
  match idx with
  | none => Cell.null
  | some i => row.getD i Cell.null

/-- `findSheet` (identical in wb.ts and ozon.ts): first sheet whose
normalized name contains the normalized expected name.  The model returns
the sheet's grid along with its name (the source looks the grid up by
name immediately after). -/
def findSheet (workbook : List (String × Grid)) (expectedName : String) :
    Option (String × Grid) :=
  workbook.find? (fun p => jsIncludes (normalizeHeaderStr p.1) (normalizeHeaderStr expectedName))

structure WBRow where
  artikul : String
  impressions : ℚ
  visits : ℚ
  ctr : ℚ
  add_to_cart : ℚ
  cr_to_cart : ℚ
  orders : ℚ
  revenue : Option ℚ
  price_avg : Option ℚ
  stock_end : Option ℚ
  delivery_avg_hours : Option ℚ
  rating : Option ℚ
  reviews_count : Option ℚ
deriving DecidableEq, Repr

structure WBColumnMap where
  artikul : Option ℕ
  impressions : Option ℕ
  visits : Option ℕ
  ctr : Option ℕ
  add_to_cart : Option ℕ
  cr_to_cart : Option ℕ
  orders : Option ℕ
  revenue : Option ℕ
  price_avg : Option ℕ
  stock_end : Option ℕ
  delivery : Option ℕ
  rating : Option ℕ
  reviews : Option ℕ
deriving DecidableEq, Repr

/-- wb.ts lines 159-166: index of the first row among the first 10 with a
cell that is neither null nor the empty string; defaults to 0. -/
def wbHeaderRowIndex (data : Grid) : ℕ :=
  ((List.range (min 10 data.length)).find?
    (fun i => (data.getD i []).any
      (fun cell => ¬ (cell = Cell.null ∨ cell = Cell.str "")))).getD 0

/-- wb.ts lines 168-186: fuzzy column resolution over the normalized
header row. -/
def wbColumnMap (data : Grid) : WBColumnMap :=
  let headers := data.getD (wbHeaderRowIndex data) []
  let nh := headers.map normalizeHeader
  { artikul := findColumnIndex nh ["артикул", "продав"]
    impressions := findColumnIndex nh ["показы"]
    visits := findColumnIndex nh ["переход", "карточ"]
    ctr := findColumnIndex nh ["ctr"]
    add_to_cart := findColumnIndex nh ["корзин"]
    cr_to_cart := findColumnIndex nh ["конверси", "корзин"]
    orders := findColumnIndex nh ["заказ", "шт"]
    revenue := findColumnIndex nh ["заказали на сумму", "выруч"]
    price_avg := findColumnIndex nh ["средняя цена"]
    stock_end := findColumnIndex nh ["остатк", "шт"]
    delivery := findColumnIndex nh ["среднее время достав"]
    rating := findColumnIndex nh ["рейтинг"]
    reviews := findColumnIndex nh ["отзыв"] }

/-- Accumulator of the wb.ts row-scan loop (the loop writes rows and
counters only; it never touches `errors` or `warnings`). -/
structure WBScan where
  rows : List WBRow
  rowsAccepted : ℕ
  rowsSkipped : ℕ
  skipReasons : List (String × ℕ)
deriving DecidableEq, Repr

/-- `skipReasons[reason] = (skipReasons[reason] || 0) + 1` on an
insertion-ordered association list (JS object key order). -/
def bumpReason (rs : List (String × ℕ)) (k : String) : List (String × ℕ) :=
  if rs.any (fun p => p.1 = k) then
    rs.map (fun p => if p.1 = k then (p.1, p.2 + 1) else p)
  else rs ++ [(k, 1)]

def wbSkip (st : WBScan) (reason : String) : WBScan :=
  { st with rowsSkipped := st.rowsSkipped + 1,
            skipReasons := bumpReason st.skipReasons reason }

/-- One iteration of the wb.ts row-scan loop (lines 210-289). -/
def wbRowStep (cm : WBColumnMap) (st : WBScan) (row : List Cell) : WBScan :=
  if row = [] then st
  else if isTotalsRow row then wbSkip st "totals_row"
  else
    let artikul := jsToUpperStr (jsTrim (cellOrEmptyToString (cellAt row cm.artikul)))
    if ¬ isValidArtikul artikul then wbSkip st "invalid_artikul"
    else
      match coerceInt (parseNumberRU (cellAt row cm.impressions)),
            coerceInt (parseNumberRU (cellAt row cm.visits)) with
      | some impressions, some visits =>
        let ctrRaw := cellAt row cm.ctr
        let ctr :=
          if ctrRaw ≠ Cell.null then
            (clampFraction (parsePercentToFraction ctrRaw)).getD
              ((safeDiv (some visits) (some impressions)).getD 0)
          else (safeDiv (some visits) (some impressions)).getD 0
        let add_to_cart := (coerceInt (parseNumberRU (cellAt row cm.add_to_cart))).getD 0
        let crRaw := cellAt row cm.cr_to_cart
        let cr_to_cart :=
          if crRaw ≠ Cell.null then
            (clampFraction (parsePercentToFraction crRaw)).getD
              ((safeDiv (some add_to_cart) (some visits)).getD 0)
          else (safeDiv (some add_to_cart) (some visits)).getD 0
        let orders := (coerceInt (parseNumberRU (cellAt row cm.orders))).getD 0
        let revenue := parseNumberRU (cellAt row cm.revenue)
        let price_avg := parseNumberRU (cellAt row cm.price_avg)
        let stock_end := coerceInt (parseNumberRU (cellAt row cm.stock_end))
        let delivery_avg_hours := parseNumberRU (cellAt row cm.delivery)
        let rating := parseNumberRU (cellAt row cm.rating)
        let reviews_count := coerceInt (parseNumberRU (cellAt row cm.reviews))
        { st with
          rows := st.rows ++ [⟨artikul, impressions, visits, ctr, add_to_cart,
            cr_to_cart, orders, revenue, price_avg, stock_end,
            delivery_avg_hours, rating, reviews_count⟩],
          rowsAccepted := st.rowsAccepted + 1 }
      | _, _ => wbSkip st "missing_required"

structure WBDiagnostics where
  sheetName : Option String
  totalRowsScanned : ℤ
  rowsAccepted : ℕ
  rowsSkipped : ℕ
  skipReasons : List (String × ℕ)
  missingColumns : List String
deriving DecidableEq, Repr

/-- The result record of `parseWBFile` (the display-only `columnMapping`
echo of header texts and the period fields are omitted from the model). -/
structure WBParseResult where
  rows : List WBRow
  diagnostics : WBDiagnostics
  errors : List String
  warnings : List String
deriving DecidableEq, Repr

def wbEmptyDiagnostics : WBDiagnostics :=
  { sheetName := none, totalRowsScanned := 0, rowsAccepted := 0,
    rowsSkipped := 0, skipReasons := [], missingColumns := [] }

/-- wb.ts lines 194-201: keys of the required columns (`artikul`,
`impressions`, `visits`) that failed to resolve. -/
def wbMissingColumns (cm : WBColumnMap) : List String :=
  (if cm.artikul = none then ["artikul"] else []) ++
  (if cm.impressions = none then ["impressions"] else []) ++
  (if cm.visits = none then ["visits"] else [])

/-- `parseWBFile` (src/lib/parsers/wb.ts), modelled from the cell grids of
the workbook onward.  Structural failures return early with `rows = []`;
the row scan runs only when no required column is missing. -/
def parseWBFile (workbook : List (String × Grid)) : WBParseResult :=
  match findSheet workbook "Товары" with
  | none =>
    { rows := [], diagnostics := wbEmptyDiagnostics,
      errors := ["Лист \"Товары\" не найден. Проверьте, что файл содержит лист с названием, содержащим \"товар\""],
      warnings := [] }
  | some (sheetName, data) =>
    if data.length < 2 then
      { rows := [],
        diagnostics := { wbEmptyDiagnostics with sheetName := some sheetName },
        errors := ["Файл не содержит данных (меньше 2 строк)"], warnings := [] }
    else
      let headerRowIndex := wbHeaderRowIndex data
      let cm := wbColumnMap data
      let missing := wbMissingColumns cm
      let errs := missing.map (fun key => "Обязательная колонка \"" ++ key ++ "\" не найдена")
      if errs = [] then
        let out := (data.drop (headerRowIndex + 1)).foldl (wbRowStep cm)
          ⟨[], 0, 0, []⟩
        { rows := out.rows,
          diagnostics :=
            { sheetName := some sheetName,
              totalRowsScanned := (data.length : ℤ) - headerRowIndex - 1,
              rowsAccepted := out.rowsAccepted, rowsSkipped := out.rowsSkipped,
              skipReasons := out.skipReasons, missingColumns := [] },
          errors := [], warnings := [] }
      else
        { rows := [],
          diagnostics := { wbEmptyDiagnostics with
            sheetName := some sheetName, missingColumns := missing },
          errors := errs, warnings := [] }

/-! ## Ozon (Format B) parser — src/lib/parsers/ozon.ts -/

/-- ozon.ts line 20: `const AGGREGATE_DUPLICATES = true`. -/
def AGGREGATE_DUPLICATES : Bool := true

structure OzonRow where
  artikul : String
  impressions : ℚ
  visits : ℚ
  ctr : Option ℚ
  add_to_cart : ℚ
  cr_to_cart : Option ℚ
  orders : ℚ
  revenue : Option ℚ
  price_avg : Option ℚ
  drr : Option ℚ
  stock_end : Option ℚ
  rating : Option ℚ
  reviews_count : Option ℚ
deriving DecidableEq, Repr

/-- `buildCompositeHeaders` (ozon.ts lines 123-142): two-row composite
headers with the group label inherited from the left; any composite whose
group/metric mentions the dynamics marker is blanked. -/
def buildCompositeHeaders (row1 row2 : List Cell) : List String :=
  let maxLen := max row1.length row2.length
  ((List.range maxLen).foldl
    (fun (st : String × List String) i =>
      let lastGroup := st.1
      let groupRaw := normalizeHeader (row1.getD i Cell.null)
      let group := if groupRaw = "" then lastGroup else groupRaw
      let metric := normalizeHeader (row2.getD i Cell.null)
      let lastGroup2 := if group ≠ "" then group else lastGroup
      let composite :=
        if metric ≠ "" then
          (if group ≠ "" then group ++ " | " ++ metric else metric)
        else group
      let isDynamic := jsIncludes composite "динамика" || jsIncludes group "динамика" ||
        jsIncludes metric "динамика"
      (lastGroup2, st.2 ++ [if isDynamic then "" else composite]))
    ("", [])).2

/-- `findColumnByGroupAndMetric` (ozon.ts lines 147-168). -/
def findColumnByGroupAndMetric (headers : List String)
    (groupPatterns metricPatterns : List String) : Option ℕ :=
  headers.findIdx? (fun header =>
    header ≠ "" &&
    (groupPatterns.isEmpty ||
      groupPatterns.any (fun p => jsIncludes header (normalizeHeaderStr p))) &&
    (metricPatterns.isEmpty ||
      metricPatterns.any (fun p => jsIncludes header (normalizeHeaderStr p))))

/-- Worker for `jsSplitOnPipe`. -/
def splitPipeAux : List Char → List Char → List String
  | [], acc => [⟨acc.reverse⟩]
  | c :: rest, acc =>
    if c = '|' then (⟨acc.reverse⟩ : String) :: splitPipeAux rest []
    else splitPipeAux rest (c :: acc)

/-- JS `header.split('|')`. -/
def jsSplitOnPipe (s : String) : List String := splitPipeAux s.data []

/-- JS `Array.prototype.join(sep)`. -/
def jsJoin (sep : String) : List String → String
  | [] => ""
  | [x] => x
  | x :: xs => x ++ sep ++ jsJoin sep xs

/-- `findColumnByMetricOnly` (ozon.ts lines 170-181): match only the metric
segment of the composite (after the `|`). -/
def findColumnByMetricOnly (headers : List String)
    (metricPatterns : List String) : Option ℕ :=
  headers.findIdx? (fun header =>
    header ≠ "" &&
    (let parts := (jsSplitOnPipe header).map jsTrim
     let metric := if parts.length > 1 then parts.getD 1 "" else parts.getD 0 ""
     metricPatterns.any (fun p => jsIncludes metric (normalizeHeaderStr p))))

/-- The merge applied to an existing aggregated row and one more duplicate
(ozon.ts lines 196-248, the `if (existing)` branch of
`aggregateDuplicates`). -/
def mergeDuplicate (existing row : OzonRow) : OzonRow :=
  let prevVisits := existing.visits
  let prevImpressions := existing.impressions
  let prevRevenue := existing.revenue.getD 0
  let impressions2 := existing.impressions + row.impressions
  let visits2 := existing.visits + row.visits
  let add2 := existing.add_to_cart + row.add_to_cart
  let orders2 := existing.orders + row.orders
  let revenue2 : Option ℚ := some (existing.revenue.getD 0 + row.revenue.getD 0)
  let ctr2 := clampFraction (safeDiv (some visits2) (some impressions2))
  let cr2 := clampFraction (safeDiv (some add2) (some visits2))
  let totalVisits := prevVisits + row.visits
  let totalImpressions := prevImpressions + row.impressions
  let price2 :=
    match row.price_avg with
    | some p =>
      if totalVisits > 0 then
        some (existing.price_avg.getD 0 * (prevVisits / totalVisits) +
          p * (row.visits / totalVisits))
      else if totalImpressions > 0 then
        some (existing.price_avg.getD 0 * (prevImpressions / totalImpressions) +
          p * (row.impressions / totalImpressions))
      else if existing.price_avg = none then some p
      else existing.price_avg
    | none => existing.price_avg
  let drr2 :=
    match row.drr with
    | some d =>
      if prevRevenue ≠ 0 ∧ row.revenue.getD 0 ≠ 0 then
        let totalRevenue := prevRevenue + row.revenue.getD 0
        some (existing.drr.getD 0 * (prevRevenue / totalRevenue) +
          d * (row.revenue.getD 0 / totalRevenue))
      else
        match existing.drr with
        | none => some d
        | some d0 => some ((d0 + d) / 2)
    | none => existing.drr
  { artikul := existing.artikul
    impressions := impressions2
    visits := visits2
    ctr := ctr2
    add_to_cart := add2
    cr_to_cart := cr2
    orders := orders2
    revenue := revenue2
    price_avg := price2
    drr := drr2
    stock_end := if row.stock_end ≠ none then row.stock_end else existing.stock_end
    rating := if row.rating ≠ none then row.rating else existing.rating
    reviews_count :=
      if row.reviews_count ≠ none then row.reviews_count else existing.reviews_count }

/-- Replace the value stored under key `k` (JS `Map.set` on an existing
key keeps the key's insertion position). -/
def assocReplace (m : List (String × OzonRow)) (k : String) (v : OzonRow) :
    List (String × OzonRow) :=
  m.map (fun p => if p.1 = k then (k, v) else p)

/-- One step of the `aggregateDuplicates` loop over already-parsed rows. -/
def aggStep (st : List (String × OzonRow) × ℕ) (row : OzonRow) :
    List (String × OzonRow) × ℕ :=
  match (st.1.find? (fun p => p.1 = row.artikul)).map Prod.snd with
  | some existing => (assocReplace st.1 row.artikul (mergeDuplicate existing row), st.2 + 1)
  | none => (st.1 ++ [(row.artikul, row)], st.2)

/-- `aggregateDuplicates` (ozon.ts lines 186-258): one pass over the rows,
keyed by artikul in an insertion-ordered map; returns the merged rows in
key-insertion order together with the number of merged duplicates. -/
def aggregateDuplicates (rows : List OzonRow) : List OzonRow × ℕ :=
  let st := rows.foldl aggStep ([], 0)
  (st.1.map Prod.snd, st.2)

structure OzonColumnMap where
  artikul : Option ℕ
  impressions : Option ℕ
  visits : Option ℕ
  add_to_cart : Option ℕ
  cr_to_cart : Option ℕ
  orders : Option ℕ
  revenue : Option ℕ
  price_avg : Option ℕ
  drr : Option ℕ
  stock_end : Option ℕ
  rating : Option ℕ
  reviews : Option ℕ
deriving DecidableEq, Repr

/-- ozon.ts lines 357-420: two-tier column resolution over the composite
headers (group+metric first, metric-only fallback for impressions and
visits). -/
def ozonColumnMap (compositeHeaders : List String) : OzonColumnMap :=
  let impressionsComposite := findColumnByGroupAndMetric compositeHeaders
    ["воронка продаж"] ["показы всего", "показы"]
  let visitsComposite := findColumnByGroupAndMetric compositeHeaders
    ["воронка продаж"] ["посещения карточки товара", "посещения карточки"]
  { artikul := findColumnByGroupAndMetric compositeHeaders [] ["артикул"]
    impressions := impressionsComposite.orElse
      (fun _ => findColumnByMetricOnly compositeHeaders ["показы всего", "показы"])
    visits := visitsComposite.orElse
      (fun _ => findColumnByMetricOnly compositeHeaders
        ["посещения карточки товара", "посещения карточки"])
    add_to_cart := findColumnByGroupAndMetric compositeHeaders ["воронка продаж"]
      ["добавления в корзину всего", "добавления в корзину", "корзин"]
    cr_to_cart := findColumnByGroupAndMetric compositeHeaders ["воронка продаж"]
      ["конверсия в корзину общая", "конверсия в корзину", "конверсия", "корзин"]
    orders := findColumnByGroupAndMetric compositeHeaders ["воронка продаж"]
      ["заказано товаров", "заказано"]
    revenue := findColumnByGroupAndMetric compositeHeaders ["продажи"]
      ["заказано на сумму", "заказано", "сумм", "выручка"]
    price_avg := findColumnByGroupAndMetric compositeHeaders ["факторы продаж"]
      ["средняя цена", "средняя"]
    drr := findColumnByGroupAndMetric compositeHeaders ["факторы продаж"]
      ["общая дрр", "дрр"]
    stock_end := findColumnByGroupAndMetric compositeHeaders ["факторы продаж"]
      ["остаток на конец периода", "остаток на конец", "остаток"]
    rating := findColumnByGroupAndMetric compositeHeaders ["факторы продаж"]
      ["рейтинг товара", "рейтинг"]
    reviews := findColumnByGroupAndMetric compositeHeaders ["факторы продаж"]
      ["отзывы"] }

/-- ozon.ts lines 315-331: the header row must contain a products keyword
and one of the known group labels, within the first
`min(60, data.length - 1) + 1` rows. -/
def ozonHeaderStartRow (data : Grid) : Option ℕ :=
  (List.range (min 60 (data.length - 1) + 1)).find? (fun i =>
    let normalized := (data.getD i []).map normalizeHeader
    normalized.any (fun cell => jsIncludes cell "товар") &&
    normalized.any (fun cell =>
      jsIncludes cell "воронка продаж" || jsIncludes cell "факторы продаж" ||
      jsIncludes cell "продажи"))

/-- Accumulator of the ozon.ts row-scan loop: rows, counters, and the
deduplicating warnings set with the negative/zero tallies. -/
structure OzonScan where
  rows : List OzonRow
  rowsAccepted : ℕ
  rowsSkipped : ℕ
  skipReasons : List (String × ℕ)
  warningsSet : List String
  zeroImpressionsCount : ℕ
  negativeValuesCount : ℕ
deriving DecidableEq, Repr

/-- `Set.add` on the insertion-ordered warnings set. -/
def addWarning (ws : List String) (w : String) : List String :=
  if ws.contains w then ws else ws ++ [w]

/-- `clampNonNegative` (ozon.ts lines 478-486): clamp a negative value to
zero, recording a per-field warning and bumping the negatives counter. -/
def clampNonNegative (st : OzonScan) (value : Option ℚ) (label : String) :
    Option ℚ × OzonScan :=
  match value with
  | none => (none, st)
  | some x =>
    if x < 0 then
      (some 0,
        { st with
          negativeValuesCount := st.negativeValuesCount + 1,
          warningsSet := addWarning st.warningsSet
            ("OZON: отрицательные значения \"" ++ label ++ "\" были обнулены.") })
    else (some x, st)

def ozonSkip (st : OzonScan) (reason : String) : OzonScan :=
  { st with rowsSkipped := st.rowsSkipped + 1,
            skipReasons := bumpReason st.skipReasons reason }

/-- One iteration of the ozon.ts row-scan loop (lines 456-562). -/
def ozonRowStep (cm : OzonColumnMap) (st : OzonScan) (row : List Cell) : OzonScan :=
  if row = [] then st
  else if isTotalsRow row then ozonSkip st "totals_row"
  else
    let artikul := jsToUpperStr (jsTrim (cellOrEmptyToString (cellAt row cm.artikul)))
    if ¬ isValidArtikul artikul then ozonSkip st "invalid_artikul"
    else
      let i1 := clampNonNegative st
        (coerceInt (parseNumberRU (cellAt row cm.impressions))) "Показы всего"
      let v1 := clampNonNegative i1.2
        (coerceInt (parseNumberRU (cellAt row cm.visits))) "Посещения карточки товара"
      match i1.1, v1.1 with
      | some impressions, some visits =>
        let a1 := clampNonNegative v1.2
          (some ((coerceInt (parseNumberRU (cellAt row cm.add_to_cart))).getD 0))
          "Добавления в корзину"
        let add_to_cart := a1.1.getD 0
        let o1 := clampNonNegative a1.2
          (some ((coerceInt (parseNumberRU (cellAt row cm.orders))).getD 0))
          "Заказано товаров"
        let orders := o1.1.getD 0
        let r1 := clampNonNegative o1.2 (parseNumberRU (cellAt row cm.revenue)) "Выручка"
        let p1 := clampNonNegative r1.2 (parseNumberRU (cellAt row cm.price_avg)) "Средняя цена"
        let drr := clampFraction (parsePercentToFraction (cellAt row cm.drr))
        let s1 := clampNonNegative p1.2
          (coerceInt (parseNumberRU (cellAt row cm.stock_end))) "Остаток"
        let g1 := clampNonNegative s1.2 (parseNumberRU (cellAt row cm.rating)) "Рейтинг"
        let w1 := clampNonNegative g1.2
          (coerceInt (parseNumberRU (cellAt row cm.reviews))) "Отзывы"
        let ctr := clampFraction (safeDiv (some visits) (some impressions))
        let crRaw := cellAt row cm.cr_to_cart
        let cr_to_cart :=
          if crRaw ≠ Cell.null then
            match clampFraction (parsePercentToFraction crRaw) with
            | some v => some v
            | none => safeDiv (some add_to_cart) (some visits)
          else safeDiv (some add_to_cart) (some visits)
        let st9 := w1.2
        let st10 :=
          if impressions = 0 then
            { st9 with zeroImpressionsCount := st9.zeroImpressionsCount + 1 }
          else st9
        { st10 with
          rows := st10.rows ++ [⟨artikul, impressions, visits, ctr, add_to_cart,
            cr_to_cart, orders, r1.1, p1.1, drr, s1.1, g1.1, w1.1⟩],
          rowsAccepted := st10.rowsAccepted + 1 }
      | _, _ => ozonSkip v1.2 "missing_required"

structure OzonDiagnostics where
  sheetName : Option String
  headerStartRow : Option ℕ
  headerSecondRow : Option ℕ
  headerSample : List String
  totalRowsScanned : ℤ
  rowsAccepted : ℕ
  rowsSkipped : ℕ
  duplicatesAggregated : ℕ
  aggregationApplied : Bool
  skipReasons : List (String × ℕ)
  missingColumns : List String
deriving DecidableEq, Repr

/-- The result record of `parseOzonFile` (the display-only `columnMapping`
echo and the period fields are omitted from the model). -/
structure OzonParseResult where
  rows : List OzonRow
  diagnostics : OzonDiagnostics
  errors : List String
  warnings : List String
deriving DecidableEq, Repr

def ozonEmptyDiagnostics : OzonDiagnostics :=
  { sheetName := none, headerStartRow := none, headerSecondRow := none,
    headerSample := [], totalRowsScanned := 0, rowsAccepted := 0,
    rowsSkipped := 0, duplicatesAggregated := 0,
    aggregationApplied := AGGREGATE_DUPLICATES, skipReasons := [],
    missingColumns := [] }

/-- The three required Ozon columns with their human labels
(ozon.ts lines 431-435). -/
def ozonRequiredColumns (cm : OzonColumnMap) : List (Option ℕ × String × String) :=
  [(cm.artikul, "artikul", "Артикул"),
   (cm.impressions, "impressions", "Показы всего"),
   (cm.visits, "visits", "Посещения карточки товара")]

/-- The required Ozon columns that failed to resolve. -/
def ozonMissingColumns (cm : OzonColumnMap) : List (Option ℕ × String × String) :=
  (ozonRequiredColumns cm).filter (fun t => t.1 = none)

/-- ozon.ts lines 429-430: the composite-header sample appended to every
missing-column error message. -/
def ozonHeaderSampleText (headerSample : List String) : String :=
  if headerSample ≠ [] then jsJoin ", " headerSample else "не найдено"

/-- `parseOzonFile` (src/lib/parsers/ozon.ts), modelled from the cell
grids of the workbook onward.  Structural failures return early with
`rows = []`; the row scan and duplicate aggregation run only when no
required column is missing. -/
def parseOzonFile (workbook : List (String × Grid)) : OzonParseResult :=
  match findSheet workbook "По товарам" with
  | none =>
    { rows := [], diagnostics := ozonEmptyDiagnostics,
      errors := ["OZON: лист с названием \"По товарам\" не найден."],
      warnings := [] }
  | some (sheetName, data) =>
    if data.length < 3 then
      { rows := [],
        diagnostics := { ozonEmptyDiagnostics with sheetName := some sheetName },
        errors := ["Файл не содержит данных (меньше 3 строк)"], warnings := [] }
    else
      match ozonHeaderStartRow data with
      | none =>
        { rows := [],
          diagnostics := { ozonEmptyDiagnostics with sheetName := some sheetName },
          errors := ["OZON: не нашли строку шапки (ожидали \"Воронка продаж\" / \"Факторы продаж\" / \"Продажи\")."],
          warnings := [] }
      | some headerStartRow =>
        if headerStartRow + 1 ≥ data.length then
          { rows := [],
            diagnostics := { ozonEmptyDiagnostics with sheetName := some sheetName },
            errors := ["OZON: не нашли вторую строку шапки (двухстрочная шапка)."],
            warnings := [] }
        else
          let headerSecondRow := headerStartRow + 1
          let row1 := data.getD headerStartRow []
          let row2 := data.getD headerSecondRow []
          let compositeHeaders := buildCompositeHeaders row1 row2
          let headerSample := (compositeHeaders.filter (fun h => h ≠ "")).take 30
          let cm := ozonColumnMap compositeHeaders
          let missing := ozonMissingColumns cm
          let errs := missing.map (fun t =>
            "OZON: не нашли колонку \"" ++ t.2.2 ++
            "\". Найденные composite заголовки (первые 30): " ++
            ozonHeaderSampleText headerSample)
          if errs = [] then
            let startRow := headerSecondRow + 3
            let out := (data.drop startRow).foldl (ozonRowStep cm)
              ⟨[], 0, 0, [], [], 0, 0⟩
            let agg :=
              if AGGREGATE_DUPLICATES then aggregateDuplicates out.rows
              else (out.rows, 0)
            let ws1 :=
              if out.zeroImpressionsCount > 0 then
                addWarning out.warningsSet
                  ("OZON: " ++ natToString out.zeroImpressionsCount ++
                    " строк(и) с показами = 0. CTR рассчитан как null.")
              else out.warningsSet
            let ws2 :=
              if out.negativeValuesCount > 0 then
                addWarning ws1 "OZON: обнаружены отрицательные значения, они были обнулены."
              else ws1
            { rows := agg.1,
              diagnostics :=
                { sheetName := some sheetName,
                  headerStartRow := some headerStartRow,
                  headerSecondRow := some headerSecondRow,
                  headerSample := headerSample,
                  totalRowsScanned := (data.length : ℤ) - startRow,
                  rowsAccepted := out.rowsAccepted,
                  rowsSkipped := out.rowsSkipped,
                  duplicatesAggregated := agg.2,
                  aggregationApplied := AGGREGATE_DUPLICATES,
                  skipReasons := out.skipReasons,
                  missingColumns := [] },
              errors := [], warnings := ws2 }
          else
            { rows := [],
              diagnostics := { ozonEmptyDiagnostics with
                sheetName := some sheetName,
                headerStartRow := some headerStartRow,
                headerSecondRow := some headerSecondRow,
                headerSample := headerSample,
                missingColumns := missing.map (fun t => t.2.1) },
              errors := errs, warnings := [] }

/-! ## Specification-side definitions -/

/-- The column-resolution policy as the specification words it
(§4.2 `resolveColumn`): "returns the index of the first header whose
normalized text contains the first candidate that matches any header,
trying candidates in priority order".  Matching is the one `pickColIndex`
uses (non-empty header containing the lower-cased candidate). -/
def resolveColumnSpec (headers candidates : List String) : Option ℕ :=
  match candidates.find?
      (fun c => headers.any (fun h => h ≠ "" && jsIncludes h (jsToLowerStr c))) with
  | some c => headers.findIdx? (fun h => h ≠ "" && jsIncludes h (jsToLowerStr c))
  | none => none

/-- `q` is a natural number (a non-negative integer JS value). -/
def qIsNat (q : ℚ) : Prop := ∃ n : ℕ, q = (n : ℚ)

/-- An optional value that is non-negative when present. -/
def optNonneg (x : Option ℚ) : Prop := ∀ v, x = some v → 0 ≤ v

/-- An optional value that lies in `[0,1]` when present. -/
def optIn01 (x : Option ℚ) : Prop := ∀ v, x = some v → 0 ≤ v ∧ v ≤ 1

/-- An optional value that is a natural number when present. -/
def optNat (x : Option ℚ) : Prop := ∀ v, x = some v → qIsNat v

/-- Field invariant actually guaranteed for every accepted Format-A row:
the counter fields are non-negative integers and the two rate fields are
non-negative.  (`revenue`, `price_avg`, `rating` and `delivery_avg_hours`
are passed through unclamped by wb.ts and may be negative; the fallback
rates may exceed 1.) -/
def wbRowInvariant (r : WBRow) : Prop :=
  qIsNat r.impressions ∧ qIsNat r.visits ∧ qIsNat r.add_to_cart ∧
  qIsNat r.orders ∧ 0 ≤ r.ctr ∧ 0 ≤ r.cr_to_cart ∧
  optNat r.stock_end ∧ optNat r.reviews_count

/-- Field invariant guaranteed for every returned Format-B row (both for
directly accepted rows and for aggregated duplicates). -/
def ozonRowInvariant (r : OzonRow) : Prop :=
  qIsNat r.impressions ∧ qIsNat r.visits ∧ qIsNat r.add_to_cart ∧
  qIsNat r.orders ∧ optIn01 r.ctr ∧ optNonneg r.cr_to_cart ∧
  optNonneg r.revenue ∧ optNonneg r.price_avg ∧ optIn01 r.drr ∧
  optNat r.stock_end ∧ optNonneg r.rating ∧ optNat r.reviews_count

/-- Number of input rows carrying a given artikul. -/
def countArtikul (rows : List OzonRow) (k : String) : ℕ :=
  (rows.filter (fun r => r.artikul = k)).length

/-- `m.1`-membership of a key in the aggregation map. -/
def keyMem (m : List (String × OzonRow)) (k : String) : Prop :=
  ∃ v, (k, v) ∈ m

/-! ## Concrete example inputs -/

/-- A WB sheet whose data row has `visits > impressions` and a negative
revenue cell. -/
def wbNegativeGrid : Grid :=
  [[.str "артикул продавца", .str "показы", .str "переходы в карточку",
    .str "заказали на сумму"],
   [.str "abc-123", .str "10", .str "20", .str "-100"]]

/-- A WB sheet with identifier and impressions columns but no header
matching the visits candidates. -/
def wbNoVisitsGrid : Grid :=
  [[.str "артикул продавца", .str "показы"],
   [.str "abc-123", .str "100"]]

/-- A WB sheet whose data row holds `-5` in the impressions cell. -/
def wbMinusFiveGrid : Grid :=
  [[.str "артикул продавца", .str "показы", .str "переходы в карточку"],
   [.str "abc-123", .str "-5", .str "10"]]

/-- An Ozon sheet (two header rows, two spacer rows) whose data row holds
`-5` in the impressions cell. -/
def ozonMinusFiveGrid : Grid :=
  [[.str "товары", .str "воронка продаж", .str "воронка продаж"],
   [.str "артикул", .str "показы всего", .str "посещения карточки товара"],
   [],
   [],
   [.str "abc-123", .str "-5", .str "10"]]

/-- An Ozon sheet with two well-formed data rows sharing one artikul,
with impressions 100/50, visits 10/5 and add-to-cart 2/1. -/
def ozonDuplicateGrid : Grid :=
  [[.str "товары", .str "воронка продаж", .str "воронка продаж", .str "воронка продаж"],
   [.str "артикул", .str "показы всего", .str "посещения карточки товара",
    .str "добавления в корзину всего"],
   [],
   [],
   [.str "abc-123", .str "100", .str "10", .str "2"],
   [.str "abc-123", .str "50", .str "5", .str "1"]]

/-- Two already-parsed Format-B rows sharing an artikul whose ad-spend
ratios are known (`1/5` and `2/5`) while both revenues are unknown. -/
def drrRowA : OzonRow :=
  ⟨"B-2", 0, 0, none, 0, none, 0, none, none, some (1 / 5), none, none, none⟩

def drrRowB : OzonRow :=
  ⟨"B-2", 0, 0, none, 0, none, 0, none, none, some (2 / 5), none, none, none⟩

/-- Two already-parsed Format-B rows with known ad-spend ratios and known
non-zero revenues 100 and 50. -/
def drrRowC : OzonRow :=
  ⟨"C-3", 0, 0, none, 0, none, 0, some 100, none, some (1 / 5), none, none, none⟩

def drrRowD : OzonRow :=
  ⟨"C-3", 0, 0, none, 0, none, 0, some 50, none, some (2 / 5), none, none, none⟩

/-- The row `parseWBFile` accepts from `wbNegativeGrid`: fallback
click-through-rate 20/10 = 2 and revenue -100 pass through unclamped. -/
def wbNegativeRow : WBRow :=
  ⟨"ABC-123", 10, 20, 2, 0, 0, 0, some (-100), none, none, none, none, none⟩

/-- The merge of `drrRowA` and `drrRowB`: revenue coerced to `some 0`,
ad-spend ratio the plain average `3/10`. -/
def mergedDrrRowAB : OzonRow :=
  ⟨"B-2", 0, 0, none, 0, none, 0, some 0, none, some (3 / 10), none, none, none⟩

/-! ## General lemmas about the numeric utilities -/

theorem qIsNat_nonneg {q : ℚ} (h : qIsNat q) : 0 ≤ q := by
  obtain ⟨n, rfl⟩ := h
  positivity

theorem qIsNat_add {a b : ℚ} (ha : qIsNat a) (hb : qIsNat b) : qIsNat (a + b) := by
  obtain ⟨n, rfl⟩ := ha
  obtain ⟨m, rfl⟩ := hb
  exact ⟨n + m, by push_cast; ring⟩

theorem coerceInt_isNat {x : Option ℚ} {v : ℚ} (h : coerceInt x = some v) : qIsNat v := by
  unfold coerceInt at h
  cases x with
  | none => exact absurd h (by simp)
  | some w =>
    dsimp only at h
    split at h
    · exact ⟨0, by simpa using (Option.some_inj.mp h).symm⟩
    · rename_i hneg
      push_neg at hneg
      refine ⟨(jsRound w).toNat, ?_⟩
      rw [← Option.some_inj.mp h]
      exact_mod_cast (Int.toNat_of_nonneg hneg).symm

theorem coerceInt_getD_isNat (x : Option ℚ) : qIsNat ((coerceInt x).getD 0) := by
  rcases h : coerceInt x with _ | v
  · exact ⟨0, by simp⟩
  · simpa using coerceInt_isNat h

theorem coerceInt_optNat (x : Option ℚ) : optNat (coerceInt x) :=
  fun _ hv => coerceInt_isNat hv

theorem optNat_getD_zero {x : Option ℚ} (hx : optNat x) : qIsNat (x.getD 0) := by
  rcases h : x with _ | v
  · exact ⟨0, by simp⟩
  · simpa using hx v h

theorem optNonneg_getD {x : Option ℚ} (hx : optNonneg x) : 0 ≤ x.getD 0 := by
  rcases h : x with _ | v
  · simp
  · simpa using hx v h

theorem optIn01_getD {x : Option ℚ} (hx : optIn01 x) : 0 ≤ x.getD 0 ∧ x.getD 0 ≤ 1 := by
  rcases h : x with _ | v
  · norm_num
  · simpa using hx v h

theorem clampFraction_mem {x : Option ℚ} {v : ℚ} (h : clampFraction x = some v) :
    0 ≤ v ∧ v ≤ 1 := by
  unfold clampFraction at h
  cases x with
  | none => exact absurd h (by simp)
  | some w =>
    dsimp only at h
    split at h
    · rw [← Option.some_inj.mp h]
      norm_num
    · split at h
      · rw [← Option.some_inj.mp h]
        norm_num
      · rename_i h0 h1
        push_neg at h0 h1
        rw [← Option.some_inj.mp h]
        exact ⟨h0, h1⟩

theorem clampFraction_optIn01 (x : Option ℚ) : optIn01 (clampFraction x) :=
  fun _ hv => clampFraction_mem hv

theorem safeDiv_nonneg {a b v : ℚ} (ha : 0 ≤ a) (hb : 0 ≤ b)
    (h : safeDiv (some a) (some b) = some v) : 0 ≤ v := by
  unfold safeDiv at h
  dsimp only at h
  split at h
  · exact absurd h (by simp)
  · rw [← Option.some_inj.mp h]
    positivity

theorem safeDiv_getD_nonneg {a b : ℚ} (ha : 0 ≤ a) (hb : 0 ≤ b) :
    0 ≤ (safeDiv (some a) (some b)).getD 0 := by
  rcases h : safeDiv (some a) (some b) with _ | q
  · simp
  · simpa using safeDiv_nonneg ha hb h

theorem clampFraction_getD_nonneg (p : Option ℚ) {d : ℚ} (hd : 0 ≤ d) :
    0 ≤ (clampFraction p).getD d := by
  rcases h : clampFraction p with _ | q
  · simpa using hd
  · simpa using (clampFraction_mem h).1

theorem percent_mem {v : Cell} {q : ℚ} (h : parseRuPercentToFraction v = some q) :
    0 ≤ q ∧ q ≤ 1 := by
  unfold parseRuPercentToFraction at h
  rcases hn : parseRuNumber v with _ | n
  · rw [hn] at h
    exact absurd h (by simp)
  · rw [hn] at h
    dsimp only at h
    split at h
    · rename_i h01
      rw [← Option.some_inj.mp h]
      exact h01
    · split at h
      · rename_i h100
        rw [← Option.some_inj.mp h]
        constructor
        · exact div_nonneg (by linarith [h100.1]) (by norm_num)
        · exact (div_le_one (by norm_num)).mpr h100.2
      · exact absurd h (by simp)

/-! ## Lemmas about the WB row scan -/

theorem wbRowStep_rows (cm : WBColumnMap) (st : WBScan) (row : List Cell) :
    (wbRowStep cm st row).rows = st.rows ∨
    ∃ r, (wbRowStep cm st row).rows = st.rows ++ [r] ∧ wbRowInvariant r := by
  unfold wbRowStep
  split
  · exact Or.inl rfl
  · split
    · exact Or.inl rfl
    · dsimp only
      split
      · exact Or.inl rfl
      · split
        · rename_i impressions visits himp hvis
          right
          have himpN := coerceInt_isNat himp
          have hvisN := coerceInt_isNat hvis
          have himp0 := qIsNat_nonneg himpN
          have hvis0 := qIsNat_nonneg hvisN
          have haddN := coerceInt_getD_isNat (parseNumberRU (cellAt row cm.add_to_cart))
          have hadd0 := qIsNat_nonneg haddN
          refine ⟨_, rfl, himpN, hvisN, haddN,
            coerceInt_getD_isNat (parseNumberRU (cellAt row cm.orders)), ?_, ?_,
            fun v hv => coerceInt_isNat hv, fun v hv => coerceInt_isNat hv⟩
          · dsimp only
            split
            · exact clampFraction_getD_nonneg _ (safeDiv_getD_nonneg hvis0 himp0)
            · exact safeDiv_getD_nonneg hvis0 himp0
          · dsimp only
            split
            · exact clampFraction_getD_nonneg _ (safeDiv_getD_nonneg hadd0 hvis0)
            · exact safeDiv_getD_nonneg hadd0 hvis0
        · exact Or.inl rfl

theorem wbScan_rows_good (cm : WBColumnMap) :
    ∀ (rows : List (List Cell)) (st : WBScan),
      (∀ r ∈ st.rows, wbRowInvariant r) →
      ∀ r ∈ (rows.foldl (wbRowStep cm) st).rows, wbRowInvariant r := by
  intro rows
  induction rows with
  | nil => exact fun st h r hr => h r hr
  | cons row rest ih =>
    intro st h r hr
    simp only [List.foldl_cons] at hr
    refine ih _ ?_ r hr
    rcases wbRowStep_rows cm st row with heq | ⟨x, heq, hx⟩
    · rw [heq]; exact h
    · rw [heq]
      intro y hy
      rcases List.mem_append.mp hy with hy | hy
      · exact h y hy
      · rw [List.mem_singleton.mp hy]; exact hx

theorem wbRows_invariant : ∀ wb r, r ∈ (parseWBFile wb).rows → wbRowInvariant r := by
  intro wb r hr
  unfold parseWBFile at hr
  split at hr
  · simp at hr
  · split at hr
    · simp at hr
    · dsimp only at hr
      split at hr
      · exact wbScan_rows_good _ _ _ (by simp) r hr
      · simp at hr

/-! ## Lemmas about the Ozon row scan -/

theorem clampNonNegative_nonneg {st : OzonScan} {x : Option ℚ} {l : String} :
    optNonneg (clampNonNegative st x l).1 := by
  intro v hv
  unfold clampNonNegative at hv
  cases x with
  | none => simp at hv
  | some w =>
    dsimp only at hv
    split at hv
    · rw [← Option.some_inj.mp hv]
    · rename_i hneg
      push_neg at hneg
      rw [← Option.some_inj.mp hv]
      exact hneg

theorem clampNonNegative_nat {st : OzonScan} {x : Option ℚ} {l : String}
    (hx : optNat x) : optNat (clampNonNegative st x l).1 := by
  intro v hv
  unfold clampNonNegative at hv
  cases x with
  | none => simp at hv
  | some w =>
    dsimp only at hv
    split at hv
    · exact ⟨0, by simp [← Option.some_inj.mp hv]⟩
    · rw [← Option.some_inj.mp hv]
      exact hx w rfl

theorem clampNonNegative_snd_rows (st : OzonScan) (x : Option ℚ) (l : String) :
    (clampNonNegative st x l).2.rows = st.rows := by
  unfold clampNonNegative
  cases x with
  | none => rfl
  | some w =>
    dsimp only
    split <;> rfl

theorem ozonRowStep_mem (cm : OzonColumnMap) (st : OzonScan) (row : List Cell) :
    ∀ x ∈ (ozonRowStep cm st row).rows, x ∈ st.rows ∨ ozonRowInvariant x := by
  unfold ozonRowStep
  split
  · exact fun x hx => Or.inl hx
  · split
    · exact fun x hx => Or.inl hx
    · dsimp only
      split
      · exact fun x hx => Or.inl hx
      · split
        · rename_i impressions visits himp hvis
          have himpN : qIsNat impressions :=
            clampNonNegative_nat (coerceInt_optNat _) impressions himp
          have hvisN : qIsNat visits :=
            clampNonNegative_nat (coerceInt_optNat _) visits hvis
          intro x hx
          dsimp only at hx
          rcases List.mem_append.mp hx with hx | hx
          · left
            split at hx <;> simpa only [clampNonNegative_snd_rows] using hx
          · right
            rw [List.mem_singleton.mp hx]
            have haddN : qIsNat ((clampNonNegative
                (clampNonNegative (clampNonNegative st
                  (coerceInt (parseNumberRU (cellAt row cm.impressions))) "Показы всего").2
                  (coerceInt (parseNumberRU (cellAt row cm.visits))) "Посещения карточки товара").2
                (some ((coerceInt (parseNumberRU (cellAt row cm.add_to_cart))).getD 0))
                "Добавления в корзину").1.getD 0) :=
              optNat_getD_zero (clampNonNegative_nat (fun v hv => by
                rw [← Option.some_inj.mp hv]
                exact coerceInt_getD_isNat _))
            refine ⟨himpN, hvisN, haddN, ?_, clampFraction_optIn01 _, ?_,
              clampNonNegative_nonneg, clampNonNegative_nonneg,
              clampFraction_optIn01 _, clampNonNegative_nat (coerceInt_optNat _),
              clampNonNegative_nonneg, clampNonNegative_nat (coerceInt_optNat _)⟩
            · exact optNat_getD_zero (clampNonNegative_nat (fun v hv => by
                rw [← Option.some_inj.mp hv]
                exact coerceInt_getD_isNat _))
            · intro v hv
              dsimp only at hv
              split at hv
              · split at hv
                · rename_i q hq
                  rw [← Option.some_inj.mp hv]
                  exact (clampFraction_mem hq).1
                · exact safeDiv_nonneg (qIsNat_nonneg haddN) (qIsNat_nonneg hvisN) hv
              · exact safeDiv_nonneg (qIsNat_nonneg haddN) (qIsNat_nonneg hvisN) hv
        · intro x hx
          left
          simp only [ozonSkip, clampNonNegative_snd_rows] at hx
          exact hx

/-! ## Lemmas about duplicate aggregation -/

theorem mergeDuplicate_inv {e r : OzonRow} (he : ozonRowInvariant e)
    (hr : ozonRowInvariant r) : ozonRowInvariant (mergeDuplicate e r) := by
  obtain ⟨heImp, heVis, heAdd, heOrd, _, _, heRev, hePrice, heDrr, heStock, heRat, heRc⟩ := he
  obtain ⟨hrImp, hrVis, hrAdd, hrOrd, _, _, hrRev, hrPrice, hrDrr, hrStock, hrRat, hrRc⟩ := hr
  unfold mergeDuplicate
  dsimp only
  refine ⟨qIsNat_add heImp hrImp, qIsNat_add heVis hrVis, qIsNat_add heAdd hrAdd,
    qIsNat_add heOrd hrOrd, clampFraction_optIn01 _,
    fun v hv => (clampFraction_mem hv).1, ?_, ?_, ?_, ?_, ?_, ?_⟩
  · intro v hv
    dsimp only at hv
    rw [← Option.some_inj.mp hv]
    exact add_nonneg (optNonneg_getD heRev) (optNonneg_getD hrRev)
  · intro v hv
    have hev0 : 0 ≤ e.visits := qIsNat_nonneg heVis
    have hrv0 : 0 ≤ r.visits := qIsNat_nonneg hrVis
    have hei0 : 0 ≤ e.impressions := qIsNat_nonneg heImp
    have hri0 : 0 ≤ r.impressions := qIsNat_nonneg hrImp
    have hep0 : 0 ≤ e.price_avg.getD 0 := optNonneg_getD hePrice
    dsimp only at hv
    split at hv
    · rename_i p hp
      have hp0 : 0 ≤ p := hrPrice p hp
      split at hv
      · rename_i ht
        rw [← Option.some_inj.mp hv]
        exact add_nonneg
          (mul_nonneg hep0 (div_nonneg hev0 (by linarith)))
          (mul_nonneg hp0 (div_nonneg hrv0 (by linarith)))
      · split at hv
        · rename_i ht
          rw [← Option.some_inj.mp hv]
          exact add_nonneg
            (mul_nonneg hep0 (div_nonneg hei0 (by linarith)))
            (mul_nonneg hp0 (div_nonneg hri0 (by linarith)))
        · split at hv
          · rw [← Option.some_inj.mp hv]
            exact hp0
          · exact hePrice v hv
    · exact hePrice v hv
  · intro v hv
    dsimp only at hv
    split at hv
    · rename_i d hd
      have hd01 := hrDrr d hd
      split at hv
      · rename_i htr
        have hp0 : 0 ≤ e.revenue.getD 0 := optNonneg_getD heRev
        have hy0 : 0 ≤ r.revenue.getD 0 := optNonneg_getD hrRev
        have hp : 0 < e.revenue.getD 0 := lt_of_le_of_ne hp0 (Ne.symm htr.1)
        have hy : 0 < r.revenue.getD 0 := lt_of_le_of_ne hy0 (Ne.symm htr.2)
        have ht : 0 < e.revenue.getD 0 + r.revenue.getD 0 := by linarith
        have ha := optIn01_getD heDrr
        have hw : e.revenue.getD 0 / (e.revenue.getD 0 + r.revenue.getD 0) +
            r.revenue.getD 0 / (e.revenue.getD 0 + r.revenue.getD 0) = 1 := by
          rw [div_add_div_same, div_self ht.ne.symm]
        rw [← Option.some_inj.mp hv]
        constructor
        · exact add_nonneg (mul_nonneg ha.1 (div_nonneg hp0 ht.le))
            (mul_nonneg hd01.1 (div_nonneg hy0 ht.le))
        · nlinarith [ha.1, ha.2, hd01.1, hd01.2,
            div_nonneg hp0 ht.le, div_nonneg hy0 ht.le, hw]
      · split at hv
        · rw [← Option.some_inj.mp hv]
          exact hd01
        · rename_i d0 h0
          have h001 := heDrr d0 h0
          rw [← Option.some_inj.mp hv]
          constructor <;> [linarith [hd01.1, h001.1]; linarith [hd01.2, h001.2]]
    · exact heDrr v hv
  · intro v hv
    dsimp only at hv
    split at hv
    · exact hrStock v hv
    · exact heStock v hv
  · intro v hv
    dsimp only at hv
    split at hv
    · exact hrRat v hv
    · exact heRat v hv
  · intro v hv
    dsimp only at hv
    split at hv
    · exact hrRc v hv
    · exact heRc v hv

theorem mem_assocReplace {m : List (String × OzonRow)} {k : String} {v : OzonRow}
    {kv : String × OzonRow} (h : kv ∈ assocReplace m k v) :
    kv = (k, v) ∨ (kv ∈ m ∧ kv.1 ≠ k) := by
  unfold assocReplace at h
  obtain ⟨p, hp, hfp⟩ := List.mem_map.mp h
  by_cases hk : p.1 = k
  · left
    rw [← hfp]
    simp [hk]
  · right
    rw [← hfp]
    simp [hk]
    exact hp

theorem aggStep_values {st : List (String × OzonRow) × ℕ} {row : OzonRow}
    (hm : ∀ kv ∈ st.1, ozonRowInvariant kv.2) (hrow : ozonRowInvariant row) :
    ∀ kv ∈ (aggStep st row).1, ozonRowInvariant kv.2 := by
  intro kv hkv
  unfold aggStep at hkv
  split at hkv
  · rename_i existing hex
    rcases mem_assocReplace hkv with heq | ⟨hmem, _⟩
    · rw [heq]
      obtain ⟨p, hp, hpe⟩ := Option.map_eq_some'.mp hex
      have hpg := hm p (List.mem_of_find?_eq_some hp)
      rw [hpe] at hpg
      exact mergeDuplicate_inv hpg hrow
    · exact hm kv hmem
  · rcases List.mem_append.mp hkv with hmem | hsing
    · exact hm kv hmem
    · rw [List.mem_singleton.mp hsing]
      exact hrow

theorem agg_values_good : ∀ (rows : List OzonRow) (st : List (String × OzonRow) × ℕ),
    (∀ kv ∈ st.1, ozonRowInvariant kv.2) → (∀ r ∈ rows, ozonRowInvariant r) →
    ∀ kv ∈ (rows.foldl aggStep st).1, ozonRowInvariant kv.2 := by
  intro rows
  induction rows with
  | nil => exact fun st hm _ => hm
  | cons row rest ih =>
    intro st hm hrows
    simp only [List.foldl_cons]
    exact ih _ (aggStep_values hm (hrows row (by simp)))
      (fun r hr => hrows r (by simp [hr]))

theorem aggregateDuplicates_inv {rows : List OzonRow}
    (h : ∀ r ∈ rows, ozonRowInvariant r) :
    ∀ r ∈ (aggregateDuplicates rows).1, ozonRowInvariant r := by
  intro r hr
  unfold aggregateDuplicates at hr
  dsimp only at hr
  obtain ⟨kv, hkv, hr2⟩ := List.mem_map.mp hr
  rw [← hr2]
  exact agg_values_good rows ([], 0) (by simp) h kv hkv

theorem ozonScan_rows_good (cm : OzonColumnMap) :
    ∀ (rows : List (List Cell)) (st : OzonScan),
      (∀ r ∈ st.rows, ozonRowInvariant r) →
      ∀ r ∈ (rows.foldl (ozonRowStep cm) st).rows, ozonRowInvariant r := by
  intro rows
  induction rows with
  | nil => exact fun st h r hr => h r hr
  | cons row rest ih =>
    intro st h r hr
    simp only [List.foldl_cons] at hr
    refine ih _ ?_ r hr
    intro x hx
    rcases ozonRowStep_mem cm st row x hx with hmem | hinv
    · exact h x hmem
    · exact hinv

theorem ozonRows_invariant : ∀ wb r, r ∈ (parseOzonFile wb).rows → ozonRowInvariant r := by
  intro wb r hr
  unfold parseOzonFile at hr
  split at hr
  · simp at hr
  · split at hr
    · simp at hr
    · split at hr
      · simp at hr
      · split at hr
        · simp at hr
        · dsimp only at hr
          split at hr
          · rw [if_pos (by decide : AGGREGATE_DUPLICATES = true)] at hr
            exact aggregateDuplicates_inv
              (ozonScan_rows_good _ _ _ (by simp)) r hr
          · simp at hr

theorem mergeDuplicate_revenue (e r : OzonRow) : (mergeDuplicate e r).revenue ≠ none := by
  unfold mergeDuplicate
  dsimp only
  simp

theorem mergeDuplicate_artikul (e r : OzonRow) :
    (mergeDuplicate e r).artikul = e.artikul := rfl

theorem assocReplace_fst (m : List (String × OzonRow)) (k : String) (v : OzonRow) :
    (assocReplace m k v).map Prod.fst = m.map Prod.fst := by
  unfold assocReplace
  rw [List.map_map]
  apply List.map_congr_left
  intro p _
  by_cases hk : p.1 = k <;> simp [hk]

theorem keyMem_iff {m : List (String × OzonRow)} {k : String} :
    keyMem m k ↔ k ∈ m.map Prod.fst := by
  unfold keyMem
  constructor
  · rintro ⟨v, hv⟩
    exact List.mem_map.mpr ⟨(k, v), hv, rfl⟩
  · intro h
    obtain ⟨p, hp, he⟩ := List.mem_map.mp h
    exact ⟨p.2, by rw [← he]; simpa using hp⟩

theorem keyMem_assocReplace {m : List (String × OzonRow)} {k0 k : String} {v : OzonRow} :
    keyMem (assocReplace m k0 v) k ↔ keyMem m k := by
  rw [keyMem_iff, keyMem_iff, assocReplace_fst]

theorem countArtikul_cons (row : OzonRow) (rest : List OzonRow) (k : String) :
    countArtikul (row :: rest) k =
      if row.artikul = k then countArtikul rest k + 1 else countArtikul rest k := by
  unfold countArtikul
  by_cases h : row.artikul = k <;> simp [List.filter_cons, h]

theorem aggStep_insert {st : List (String × OzonRow) × ℕ} {row : OzonRow}
    (hfind : (st.1.find? (fun p => p.1 = row.artikul)).map Prod.snd = none) :
    aggStep st row = (st.1 ++ [(row.artikul, row)], st.2) := by
  unfold aggStep
  rw [hfind]

theorem aggStep_merge {st : List (String × OzonRow) × ℕ} {row : OzonRow}
    {existing : OzonRow}
    (hfind : (st.1.find? (fun p => p.1 = row.artikul)).map Prod.snd = some existing) :
    aggStep st row =
      (assocReplace st.1 row.artikul (mergeDuplicate existing row), st.2 + 1) := by
  unfold aggStep
  rw [hfind]

theorem aggFold_artikul :
    ∀ (rows : List OzonRow) (st : List (String × OzonRow) × ℕ),
      (∀ kv ∈ st.1, kv.2.artikul = kv.1) →
      ∀ kv ∈ (rows.foldl aggStep st).1, kv.2.artikul = kv.1 := by
  intro rows
  induction rows with
  | nil => exact fun st h => h
  | cons row rest ih =>
    intro st h
    simp only [List.foldl_cons]
    rcases hfind : (st.1.find? (fun p => p.1 = row.artikul)).map Prod.snd with _ | existing
    · rw [aggStep_insert hfind]
      refine ih _ ?_
      intro kv hkv
      rcases List.mem_append.mp hkv with hm | hs
      · exact h kv hm
      · rw [List.mem_singleton.mp hs]
    · rw [aggStep_merge hfind]
      refine ih _ ?_
      intro kv hkv
      rcases mem_assocReplace hkv with heq | ⟨hm, _⟩
      · rw [heq]
        obtain ⟨p, hp, hpe⟩ := Option.map_eq_some'.mp hfind
        have hpk : p.1 = row.artikul := by simpa using List.find?_some hp
        have := h p (List.mem_of_find?_eq_some hp)
        rw [mergeDuplicate_artikul, hpe] at *
        dsimp only
        rw [this, hpk]
      · exact h kv hm

theorem aggFold_none_rev :
    ∀ (rows : List OzonRow) (st : List (String × OzonRow) × ℕ)
      (kv : String × OzonRow), kv ∈ (rows.foldl aggStep st).1 →
      kv.2.revenue = none →
      (kv ∈ st.1 ∧ countArtikul rows kv.1 = 0) ∨
      (¬ keyMem st.1 kv.1 ∧ countArtikul rows kv.1 = 1) := by
  intro rows
  induction rows with
  | nil =>
    intro st kv hkv hrev
    exact Or.inl ⟨hkv, rfl⟩
  | cons row rest ih =>
    intro st kv hkv hrev
    simp only [List.foldl_cons] at hkv
    rcases hfind : (st.1.find? (fun p => p.1 = row.artikul)).map Prod.snd with _ | existing
    · rw [aggStep_insert hfind] at hkv
      have hnotmem : ¬ keyMem st.1 row.artikul := by
        rintro ⟨v, hv⟩
        have h0 := List.find?_eq_none.mp (Option.map_eq_none'.mp hfind) (row.artikul, v) hv
        simp at h0
      rcases ih _ kv hkv hrev with ⟨hmem, hcnt⟩ | ⟨hkm, hcnt⟩
      · rcases List.mem_append.mp hmem with hm | hs
        · left
          refine ⟨hm, ?_⟩
          have hne : ¬ (row.artikul = kv.1) := by
            intro he
            exact hnotmem (by rw [he]; exact ⟨kv.2, by simpa using hm⟩)
          rw [countArtikul_cons, if_neg hne]
          exact hcnt
        · right
          have he := List.mem_singleton.mp hs
          subst he
          refine ⟨hnotmem, ?_⟩
          rw [countArtikul_cons, if_pos rfl]
          omega
      · right
        have hne : ¬ (row.artikul = kv.1) := by
          intro he
          exact hkm ⟨row, List.mem_append.mpr (Or.inr (by rw [he]; simp))⟩
        constructor
        · rintro ⟨v, hv⟩
          exact hkm ⟨v, List.mem_append.mpr (Or.inl hv)⟩
        · rw [countArtikul_cons, if_neg hne]
          exact hcnt
    · rw [aggStep_merge hfind] at hkv
      have hkeymem : keyMem st.1 row.artikul := by
        obtain ⟨p, hp, hpe⟩ := Option.map_eq_some'.mp hfind
        have hpk : p.1 = row.artikul := by simpa using List.find?_some hp
        exact ⟨p.2, by rw [← hpk]; simpa using List.mem_of_find?_eq_some hp⟩
      rcases ih _ kv hkv hrev with ⟨hmem, hcnt⟩ | ⟨hkm, hcnt⟩
      · rcases mem_assocReplace hmem with heq | ⟨hm, hne⟩
        · exfalso
          apply mergeDuplicate_revenue existing row
          rw [← show kv.2 = mergeDuplicate existing row from by rw [heq]]
          exact hrev
        · left
          refine ⟨hm, ?_⟩
          rw [countArtikul_cons, if_neg (fun he => hne he.symm)]
          exact hcnt
      · right
        have hkm0 : ¬ keyMem st.1 kv.1 := fun hk =>
          hkm (keyMem_assocReplace.mpr hk)
        have hne : ¬ (row.artikul = kv.1) := by
          intro he
          exact hkm0 (by rw [← he]; exact hkeymem)
        refine ⟨hkm0, ?_⟩
        rw [countArtikul_cons, if_neg hne]
        exact hcnt

/-! ## Error/row exclusivity of the two parsers -/

theorem wbParse_errors_or_rows :
    ∀ wb, (parseWBFile wb).errors = [] ∨ (parseWBFile wb).rows = [] := by
  intro wb
  unfold parseWBFile
  split
  · exact Or.inr rfl
  · split
    · exact Or.inr rfl
    · dsimp only
      split
      · exact Or.inl rfl
      · exact Or.inr rfl

theorem ozonParse_errors_or_rows :
    ∀ wb, (parseOzonFile wb).errors = [] ∨ (parseOzonFile wb).rows = [] := by
  intro wb
  unfold parseOzonFile
  split
  · exact Or.inr rfl
  · split
    · exact Or.inr rfl
    · split
      · exact Or.inr rfl
      · split
        · exact Or.inr rfl
        · dsimp only
          split
          · exact Or.inl rfl
          · exact Or.inr rfl

theorem wb_missing_nil_iff (cm : WBColumnMap) :
    wbMissingColumns cm = [] ↔
      (cm.artikul ≠ none ∧ cm.impressions ≠ none ∧ cm.visits ≠ none) := by
  unfold wbMissingColumns
  constructor
  · intro h
    refine ⟨?_, ?_, ?_⟩ <;> intro hc <;> simp [hc] at h
  · rintro ⟨h1, h2, h3⟩
    simp [h1, h2, h3]

/-! ## The claims -/


/-- C1: for every workbook, whenever parseWBFile or parseOzonFile returns a
non-empty errors list, its rows list is empty. -/
theorem c1_errors_imply_no_rows :
    (∀ wb, (parseWBFile wb).errors ≠ [] → (parseWBFile wb).rows = []) ∧
    (∀ wb, (parseOzonFile wb).errors ≠ [] → (parseOzonFile wb).rows = []) := by
  constructor
  · intro wb h
    rcases wbParse_errors_or_rows wb with he | hr
    · exact absurd he h
    · exact hr
  · intro wb h
    rcases ozonParse_errors_or_rows wb with he | hr
    · exact absurd he h
    · exact hr

/-- Witness for C1: the empty workbook makes both parsers report an error
and return no rows. -/
theorem c1_errors_imply_no_rows_witness :
    ((parseWBFile []).errors ≠ [] ∧ (parseWBFile []).rows = []) ∧
    ((parseOzonFile []).errors ≠ [] ∧ (parseOzonFile []).rows = []) :=
  ⟨⟨by decide, c1_errors_imply_no_rows.1 [] (by decide)⟩,
   ⟨by decide, c1_errors_imply_no_rows.2 [] (by decide)⟩⟩

/-- Counterexample to C2 as stated: the WB parser accepts a row whose ctr is
2 (outside [0,1], the raw visits/impressions fallback is not clamped) and
whose revenue is some (-100) (negative, not clamped), with no warning. -/
theorem c2_unclamped_row_cex :
    (parseWBFile [("товары", wbNegativeGrid)]).rows = [wbNegativeRow] ∧
    wbNegativeRow.ctr = 2 ∧ ¬ (wbNegativeRow.ctr ≤ 1) ∧
    wbNegativeRow.revenue = some (-100) ∧
    ¬ (∀ v, wbNegativeRow.revenue = some v → 0 ≤ v) ∧
    (parseWBFile [("товары", wbNegativeGrid)]).warnings = [] := by decide

/-- C2 (amended): every row either parser returns satisfies the domain
invariant that actually holds in the code: in both parsers impressions,
visits, add-to-cart and orders are non-negative integers, and the stock
and review-count fields are non-negative integers when present; the Ozon
ctr and drr lie in [0,1] when present, and the Ozon cr, revenue, price and
rating are non-negative when present; the WB ctr and cr are only
non-negative (their unclamped safeDiv fallbacks can exceed 1), and the WB
revenue, price, rating and delivery fields are not constrained at all. -/
theorem c2_row_field_domains :
    (∀ wb r, r ∈ (parseWBFile wb).rows → wbRowInvariant r) ∧
    (∀ wb r, r ∈ (parseOzonFile wb).rows → ozonRowInvariant r) :=
  ⟨wbRows_invariant, ozonRows_invariant⟩

/-- Witness for C2 (amended): the accepted row of the negative-revenue grid
satisfies the invariant. -/
theorem c2_row_field_domains_witness : wbRowInvariant wbNegativeRow :=
  c2_row_field_domains.1 [("товары", wbNegativeGrid)] wbNegativeRow (by decide)

/-- C3: two Ozon rows with one artikul and impressions 100/50, visits 10/5,
add-to-cart 2/1 merge into impressions 150, visits 15, add-to-cart 3, with
ctr recomputed as 15/150 = 1/10 and cr as 3/15 = 1/5, whatever the two
rows original ratio values were. -/
theorem c3_duplicate_aggregation (c₁ c₂ d₁ d₂ : Option ℚ) :
    (aggregateDuplicates
      [⟨"A-1", 100, 10, c₁, 2, d₁, 0, none, none, none, none, none, none⟩,
       ⟨"A-1", 50, 5, c₂, 1, d₂, 0, none, none, none, none, none, none⟩]).1 =
    [⟨"A-1", 150, 15, some (1/10), 3, some (1/5), 0, some 0, none, none, none, none, none⟩] := by
  simp [aggregateDuplicates, aggStep, assocReplace, mergeDuplicate, safeDiv, clampFraction]
  norm_num

/-- Counterexample to C4 as stated: merging two rows with unknown (zero)
revenue and drr 1/5 and 2/5 yields drr 3/10, the plain average, not the
first known value 1/5. -/
theorem c4_drr_average_cex :
    (aggregateDuplicates [drrRowA, drrRowB]).1.map (fun r => r.drr) = [some (3 / 10)] ∧
    ¬ ((3 / 10 : ℚ) = 1 / 5) := by decide

/-- C4 (amended): the merged drr is the revenue-weighted mean when both
revenues are known and non-zero; the plain average of the two drr values
when both are known but a revenue is missing; the incoming drr when only it
is known; and the existing drr (possibly none) when the incoming row has
none. -/
theorem c4_drr_merge_rule (e r : OzonRow) :
    (∀ d p q, r.drr = some d → e.revenue = some p → r.revenue = some q →
      0 ≤ p → 0 ≤ q → p ≠ 0 → q ≠ 0 →
      (mergeDuplicate e r).drr = some ((e.drr.getD 0 * p + d * q) / (p + q))) ∧
    (∀ d d₀, r.drr = some d → e.drr = some d₀ →
      (e.revenue.getD 0 = 0 ∨ r.revenue.getD 0 = 0) →
      (mergeDuplicate e r).drr = some ((d₀ + d) / 2)) ∧
    (∀ d, r.drr = some d → e.drr = none →
      (e.revenue.getD 0 = 0 ∨ r.revenue.getD 0 = 0) →
      (mergeDuplicate e r).drr = some d) ∧
    (r.drr = none → (mergeDuplicate e r).drr = e.drr) := by
  refine ⟨?_, ?_, ?_, ?_⟩
  · intro d p q hd hp hq hp0 hq0 hpn hqn
    simp only [mergeDuplicate, hd, hp, hq, Option.getD_some]
    rw [if_pos ⟨hpn, hqn⟩]
    have hpq : p + q ≠ 0 := by positivity
    congr 1
    field_simp
  · intro d d₀ hd h₀ hrev
    simp only [mergeDuplicate, hd, h₀]
    rw [if_neg (by rcases hrev with h | h
                   · exact fun hc => hc.1 h
                   · exact fun hc => hc.2 h)]
  · intro d hd h₀ hrev
    simp only [mergeDuplicate, hd, h₀]
    rw [if_neg (by rcases hrev with h | h
                   · exact fun hc => hc.1 h
                   · exact fun hc => hc.2 h)]
  · intro hd
    simp only [mergeDuplicate, hd]

/-- Witness for C4 (amended): revenues 100 and 50 with drr 1/5 and 2/5
merge to the revenue-weighted mean 4/15. -/
theorem c4_drr_merge_rule_witness :
    (mergeDuplicate drrRowC drrRowD).drr = some (4 / 15) := by
  have h := (c4_drr_merge_rule drrRowC drrRowD).1 (2 / 5) 100 50 rfl rfl rfl
    (by norm_num) (by norm_num) (by norm_num) (by norm_num)
  rw [h]
  norm_num [drrRowC]

/-- C5: a data row with a valid artikul and impressions cell -5 is accepted
by both parsers with impressions = 0, but no warning mentions the clamped
field: the Ozon warnings hold only the zero-impressions CTR notice and the
WB warnings are empty, because coerceInt clamps the negative value before
clampNonNegative (the warning-recording clamp) can see it. -/
theorem c5_negative_impressions_no_clamp_warning :
    (parseOzonFile [("по товарам", ozonMinusFiveGrid)]).rows =
      [⟨"ABC-123", 0, 10, none, 0, some 0, 0, none, none, none, none, none, none⟩] ∧
    (parseOzonFile [("по товарам", ozonMinusFiveGrid)]).warnings =
      ["OZON: 1 строк(и) с показами = 0. CTR рассчитан как null."] ∧
    "OZON: отрицательные значения \"Показы всего\" были обнулены." ∉
      (parseOzonFile [("по товарам", ozonMinusFiveGrid)]).warnings ∧
    "OZON: обнаружены отрицательные значения, они были обнулены." ∉
      (parseOzonFile [("по товарам", ozonMinusFiveGrid)]).warnings ∧
    (parseWBFile [("товары", wbMinusFiveGrid)]).rows =
      [⟨"ABC-123", 0, 10, 0, 0, 0, 0, none, none, none, none, none, none⟩] ∧
    (parseWBFile [("товары", wbMinusFiveGrid)]).warnings = [] := by decide

/-- Counterexample to C6 as stated for findColumnIndex: with headers
[b, a] and candidates [a, b] it returns index 0 (header-first order),
not index 1 (candidate-first order). -/
theorem c6_candidate_priority_cex :
    findColumnIndex ["b", "a"] ["a", "b"] = some 0 ∧
    resolveColumnSpec ["b", "a"] ["a", "b"] = some 1 := by decide

theorem findIdx?_first_none (p : String → Bool) (l : List String)
    (h : l.findIdx? p = none) : ∀ g ∈ l, p g = false := by
  intro g hg
  have hs : (l.findIdx? p).isSome = l.any p := List.findIdx?_isSome
  rw [h] at hs
  have : l.any p = false := by simpa using hs.symm
  simpa using (List.any_eq_false.mp this) g hg

theorem findIdx?_first_some (p : String → Bool) :
    ∀ (l : List String) (i : ℕ), l.findIdx? p = some i →
      ∃ h, l[i]? = some h ∧ p h = true ∧ ∀ g ∈ l.take i, p g = false := by
  intro l
  induction l with
  | nil => intro i h; simp [List.findIdx?] at h
  | cons a t ih =>
    intro i h
    rw [List.findIdx?_cons] at h
    by_cases hpa : p a = true
    · rw [if_pos hpa] at h
      obtain rfl : (0 : ℕ) = i := Option.some_inj.mp h
      exact ⟨a, by simp, hpa, by simp⟩
    · rw [if_neg hpa, List.findIdx?_succ] at h
      obtain ⟨i', hi', rfl⟩ := Option.map_eq_some'.mp h
      obtain ⟨g, hg, hpg, hbefore⟩ := ih i' hi'
      refine ⟨g, by simpa using hg, hpg, ?_⟩
      intro x hx
      rcases (by simpa using hx : x = a ∨ x ∈ t.take i') with rfl | hx
      · simpa using hpa
      · exact hbefore x hx

/-- C6 (amended): column resolution in the parsers is header-first, not
candidate-first: findColumnIndex, which wb.ts calls for every column,
returns the earliest header fuzzy-matched by ANY of the candidates (every
earlier header matches no candidate), and none only when no header matches
any candidate — so an earlier header matched by a lower-priority candidate
wins over a later header matched by the top candidate. The claimed
candidate-priority policy is implemented only by pickColIndex, which has no
call site in the repository; for it the claimed property does hold: it
equals the spec-side resolver returning the first header matched by the
first candidate that matches any header. -/
theorem c6_resolution_order :
    (∀ headers patterns i, findColumnIndex headers patterns = some i →
      ∃ h, headers[i]? = some h ∧ fuzzyMatch h patterns = true ∧
        ∀ g ∈ headers.take i, fuzzyMatch g patterns = false) ∧
    (∀ headers patterns, findColumnIndex headers patterns = none →
      ∀ g ∈ headers, fuzzyMatch g patterns = false) ∧
    (∀ headers candidates,
      pickColIndex headers candidates = resolveColumnSpec headers candidates) := by
  refine ⟨?_, ?_, ?_⟩
  · intro headers patterns i h
    exact findIdx?_first_some _ headers i h
  · intro headers patterns h
    exact findIdx?_first_none _ headers h
  · intro headers candidates
    induction candidates with
    | nil => rfl
    | cons c rest ih =>
      by_cases hany : headers.any (fun h => h ≠ "" && jsIncludes h (jsToLowerStr c)) = true
      · have hsome : (headers.findIdx? (fun h => h ≠ "" && jsIncludes h (jsToLowerStr c))).isSome := by
          rw [List.findIdx?_isSome]
          exact hany
        obtain ⟨i, hi⟩ := Option.isSome_iff_exists.mp hsome
        simp only [pickColIndex, resolveColumnSpec, hi, List.find?_cons, hany]
      · have hfalse : headers.any (fun h => h ≠ "" && jsIncludes h (jsToLowerStr c)) = false := by
          simpa using hany
        have hnone : headers.findIdx? (fun h => h ≠ "" && jsIncludes h (jsToLowerStr c)) = none := by
          rw [← Option.not_isSome_iff_eq_none, List.findIdx?_isSome]
          exact hany
        simp only [pickColIndex, resolveColumnSpec, hnone, List.find?_cons, hfalse]
        exact ih.trans rfl

/-- Counterexample to C7 as stated: a WB grid with artikul and impressions
columns but no visits column aborts with an error and no rows; absence of
visits does not degrade to a warning. -/
theorem c7_visits_mandatory_cex :
    (parseWBFile [("товары", wbNoVisitsGrid)]).errors =
      ["Обязательная колонка \"visits\" не найдена"] ∧
    (parseWBFile [("товары", wbNoVisitsGrid)]).rows = [] ∧
    (parseWBFile [("товары", wbNoVisitsGrid)]).warnings = [] := by decide

/-- C7 (amended): the WB parser has three mandatory columns, not two: once
the sheet is found and has at least 2 rows, errors is empty exactly when
artikul, impressions and visits all resolve; and the parser never emits
warnings at all. -/
theorem c7_mandatory_columns :
    (∀ wb, (parseWBFile wb).warnings = []) ∧
    (∀ wb name data, findSheet wb "Товары" = some (name, data) → 2 ≤ data.length →
      ((parseWBFile wb).errors = [] ↔
        ((wbColumnMap data).artikul ≠ none ∧ (wbColumnMap data).impressions ≠ none ∧
          (wbColumnMap data).visits ≠ none))) := by
  constructor
  · intro wb
    unfold parseWBFile
    split
    · rfl
    · split
      · rfl
      · dsimp only
        split
        · rfl
        · rfl
  · intro wb name data hfind hlen
    unfold parseWBFile
    simp only [hfind]
    split
    · rename_i hshort
      exact absurd hshort (by omega)
    · split
      · rename_i hnil
        simp only [List.map_eq_nil_iff] at hnil
        simp only [true_iff]
        exact (wb_missing_nil_iff _).mp hnil
      · rename_i hne
        constructor
        · intro h
          exact absurd h hne
        · intro h
          exact absurd (List.map_eq_nil_iff.mpr ((wb_missing_nil_iff _).mpr h)) hne

/-- Witness for C7 (amended): a grid with artikul, impressions and visits
columns parses without errors. -/
theorem c7_mandatory_columns_witness :
    (parseWBFile [("товары", wbNegativeGrid)]).errors = [] :=
  (c7_mandatory_columns.2 [("товары", wbNegativeGrid)] "товары" wbNegativeGrid
    (by decide) (by decide)).mpr (by decide)

/-- C8: the live parseNumberRU rejects the dot-grouped "12.345,67"
(returns none) and the legacy version returns 12.345, while both accept the
space-grouped "12 345,67" as 12345.67 and map the dash to none; neither
version yields approximately 12345.67 for the dot-grouped form. -/
theorem c8_grouping_conventions :
    parseNumberRU (Cell.str "12.345,67") = none ∧
    Legacy.parseNumberRU (Cell.str "12.345,67") = some (2469 / 200) ∧
    (2469 / 200 : ℚ) = 12.345 ∧
    parseNumberRU (Cell.str "12 345,67") = some (1234567 / 100) ∧
    Legacy.parseNumberRU (Cell.str "12 345,67") = some (1234567 / 100) ∧
    parseNumberRU (Cell.str "—") = none ∧
    Legacy.parseNumberRU (Cell.str "—") = none ∧
    ¬ (2469 / 200 : ℚ) = 12345.67 := by decide

/-- C9: both versions of parsePercentToFraction apply the exact
percent-vs-fraction boundary: a parsed value in [0,1] is returned
unchanged, a value in (1,100] is divided by 100, and a negative value or
one above 100 yields none; concretely "12%" gives 3/25, 0.3 stays 3/10 and
"120%" gives none. -/
theorem c9_percent_boundary :
    (∀ v n, parseRuNumber v = some n →
      ((0 ≤ n ∧ n ≤ 1) → parsePercentToFraction v = some n) ∧
      ((1 < n ∧ n ≤ 100) → parsePercentToFraction v = some (n / 100)) ∧
      ((n < 0 ∨ 100 < n) → parsePercentToFraction v = none)) ∧
    (∀ v n, Legacy.parseNumberRU v = some n →
      ((0 ≤ n ∧ n ≤ 1) → Legacy.parsePercentToFraction v = some n) ∧
      ((1 < n ∧ n ≤ 100) → Legacy.parsePercentToFraction v = some (n / 100)) ∧
      ((n < 0 ∨ 100 < n) → Legacy.parsePercentToFraction v = none)) ∧
    parsePercentToFraction (Cell.str "12%") = some (3 / 25) ∧
    parsePercentToFraction (Cell.num (3 / 10)) = some (3 / 10) ∧
    parsePercentToFraction (Cell.str "120%") = none := by
  refine ⟨?_, ?_, by decide, by decide, by decide⟩
  · intro v n h
    refine ⟨?_, ?_, ?_⟩
    · intro hn
      simp only [parsePercentToFraction, parseRuPercentToFraction, h]
      rw [if_pos hn]
    · intro hn
      simp only [parsePercentToFraction, parseRuPercentToFraction, h]
      rw [if_neg (by push_neg; intro h0; linarith [hn.1]), if_pos hn]
    · intro hn
      simp only [parsePercentToFraction, parseRuPercentToFraction, h]
      rcases hn with hn | hn
      · rw [if_neg (by push_neg; intro h0; linarith), if_neg (by push_neg; intro h1; linarith)]
      · rw [if_neg (by push_neg; intro h0; linarith), if_neg (by push_neg; intro h1; linarith)]
  · intro v n h
    refine ⟨?_, ?_, ?_⟩
    · intro hn
      simp only [Legacy.parsePercentToFraction, h]
      rw [if_neg (by push_neg; intro h1; linarith [hn.2]), if_pos hn]
    · intro hn
      simp only [Legacy.parsePercentToFraction, h]
      rw [if_pos hn]
    · intro hn
      simp only [Legacy.parsePercentToFraction, h]
      rcases hn with hn | hn
      · rw [if_neg (by push_neg; intro h1; linarith), if_neg (by push_neg; intro h0; linarith)]
      · rw [if_neg (by push_neg; intro h1; linarith), if_neg (by push_neg; intro h0; linarith)]

/-- Witness for C9: the fraction 1/2 passes through unchanged. -/
theorem c9_percent_boundary_witness :
    parsePercentToFraction (Cell.num (1 / 2)) = some (1 / 2) :=
  ((c9_percent_boundary.1 (Cell.num (1 / 2)) (1 / 2) (by decide)).1 (by norm_num))

/-- C10: an aggregated Ozon row whose artikul occurred at least twice in
the input never has a null revenue: mergeDuplicate coerces missing
revenues to 0 before summing. -/
theorem c10_merged_revenue : ∀ (rows : List OzonRow) (r : OzonRow),
    r ∈ (aggregateDuplicates rows).1 →
    2 ≤ countArtikul rows r.artikul → r.revenue ≠ none := by
  intro rows r hr hcnt hrev
  unfold aggregateDuplicates at hr
  dsimp only at hr
  obtain ⟨kv, hkv, hre⟩ := List.mem_map.mp hr
  have hart : kv.2.artikul = kv.1 :=
    aggFold_artikul rows ([], 0) (by simp) kv hkv
  rcases aggFold_none_rev rows ([], 0) kv hkv (by rw [hre]; exact hrev) with
    ⟨hmem, _⟩ | ⟨_, hcnt1⟩
  · simp at hmem
  · rw [← hre, hart] at hcnt
    omega

/-- Witness for C10: merging the two null-revenue rows of artikul B-2
yields a row whose revenue is some 0, not none. -/
theorem c10_merged_revenue_witness : mergedDrrRowAB.revenue ≠ none :=
  c10_merged_revenue [drrRowA, drrRowB] mergedDrrRowAB (by decide) (by decide)
